import Mathlib

/-!
Verification development for the server core of the `unmanageable-talk`
chat service.  The definitions below are shallow embeddings, translated
from the Python sources under `src/backend/`:

* `Ed25519`  — point compression / decompression (`Ed25519.py`);
* `Sched`    — the scheduled-message task body (`events.py`, `schedule_handler`);
* `Db`       — a functional model of the SQLite store (`database.py`);
* `Events`   — the event handlers and the session/auth machinery (`events.py`,
  `app.py`, `notifications.py`).

Machine integers are modelled as `Nat`/`Int` with explicit `% 2 ^ w` or `% q`
where the source reduces; fallible calls return `Option`/`Except`.
-/

namespace Ed25519

/-- The field prime `q = 2^255 - 19` (`Ed25519.py`, line 14). -/
def q : Nat := 2 ^ 255 - 19

/-- Binary modular exponentiation with explicit fuel; `powModAux m fuel b e acc`
computes `acc * b ^ e % m` provided `e < 2 ^ fuel` and `acc < m`.
This is the executable embedding of Python's built-in `pow(b, e, m)`. -/
def powModAux (m : Nat) : Nat → Nat → Nat → Nat → Nat
  | 0, _, _, acc => acc
  | fuel + 1, b, e, acc =>
    if e = 0 then acc
    else powModAux m fuel (b * b % m) (e / 2) (if e % 2 = 1 then acc * b % m else acc)

/-- `powMod b e m` is Python's `pow(b, e, m)` for `e < 2 ^ 256` (all
exponents used by the source are below `q < 2 ^ 255`). -/
def powMod (b e m : Nat) : Nat := powModAux m 256 (b % m) e (1 % m)

/-- Python `pow(b, e, m)` on a possibly negative base: Python reduces the
base into `[0, m)` first (`%` on ints with a positive modulus is
mathematical mod).  Used because `d` is a negative integer in the source. -/
def pyPowMod (b : Int) (e : Nat) (m : Nat) : Int :=
  (powMod (b % (m : Int)).toNat e m : Nat)

/-- `inv(x) = pow(x, q - 2, q)` (`Ed25519.py`, line 16). -/
def inv (x : Int) : Int := pyPowMod x (q - 2) q

/-- `d = -121665 * inv(121666)` (`Ed25519.py`, line 19).  Kept as the
(negative) Python integer; every later use reduces mod `q`. -/
def d : Int := -121665 * inv 121666

/-- `I = pow(2, (q - 1) // 4, q)` (`Ed25519.py`, line 20). -/
def I : Int := pyPowMod 2 ((q - 1) / 4) q

/-- `xrecover` (`Ed25519.py`, lines 22-29): recover the even square root
of `(y² - 1) / (d y² + 1)` mod `q`. -/
def xrecover (y : Int) : Int :=
  let xx : Int := (y * y - 1) * inv (d * y * y + 1)
  let x : Int := pyPowMod xx ((q + 3) / 8) q
  let x : Int := if (x * x - xx) % (q : Int) ≠ 0 then x * I % (q : Int) else x
  if x % 2 ≠ 0 then (q : Int) - x else x

/-- The Ed25519 curve equation `-x² + y² = 1 + d x² y²` mod `q`, the
on-curve test performed by `ECC.EccPoint` when `decompress_key` builds
the point (an off-curve point raises, i.e. returns `none` here). -/
def onCurve (x y : Int) : Bool :=
  (-(x * x) + y * y - 1 - d * x * x * y * y) % (q : Int) == 0

/-- The sign adjustment of `decompress_key` (`Ed25519.py`, lines 42-46):
`x_odd = k >> 255`, `y = k` with bit 255 cleared, `x = xrecover(y)`,
negated mod `q` when its parity disagrees with `x_odd`.  (Python's
`x & 1` equals `x % 2` for the nonnegative `xrecover` output.) -/
def decompress_x (k : Nat) : Int :=
  if xrecover ((k % 2 ^ 255 : Nat) : Int) % 2 ≠ ((k >>> 255 : Nat) : Int)
  then (q : Int) - xrecover ((k % 2 ^ 255 : Nat) : Int)
  else xrecover ((k % 2 ^ 255 : Nat) : Int)

/-- `decompress_key` (`Ed25519.py`, lines 38-47) on the integer value of
the 32 little-endian key bytes (the hex string is in bijection with
`k < 2 ^ 256`).  The resulting `EccPoint` stores coordinates reduced
mod `q` and rejects off-curve points, hence the final `% q` and the
`onCurve` guard. -/
def decompress_key (k : Nat) : Option (Int × Int) :=
  if onCurve (decompress_x k % (q : Int)) (((k % 2 ^ 255 : Nat) : Int) % (q : Int))
  then some (decompress_x k % (q : Int), ((k % 2 ^ 255 : Nat) : Int) % (q : Int))
  else none

/-- `compress(x, y) = ((x & 1) << 255) | y` (`Ed25519.py`, line 32). -/
def compress (x y : Int) : Nat := ((x % 2).toNat <<< 255) ||| y.toNat

/-- `compress_key` (`Ed25519.py`, lines 34-36) on a decompressed point
(coordinates already reduced, as `EccPoint` keeps them). -/
def compress_key (p : Int × Int) : Nat := compress p.1 p.2

end Ed25519

namespace Sched

/-- The observable actions of the scheduled-message coroutine
(`events.py`, `schedule_handler`, lines 390-411). -/
inductive Action
  | sleep (seconds : Int)
  | notifySoon
  | removeEntry
  | insertMessage
  | notifySent
  | notifyMessage
  | deleteMessage
  | notifyDelete
deriving DecidableEq

/-- The action trace of `schedule_handler` (`events.py`, lines 390-411):
`pre = max(schedule - 60, 0)`, `post = schedule - pre`; the pre-sleep and
the `scheduled_soon_notification` happen only under `if pre > 0`; then the
task sleeps `post`, deletes the registry entry, inserts the message,
notifies the sender and the DM, and (when `delete > 0`) sleeps `delete`
seconds before deleting the message and broadcasting the deletion. -/
def schedule_handler (schedule delete : Int) : List Action :=
  (if max (schedule - 60) 0 > 0 then
    [.sleep (max (schedule - 60) 0), .notifySoon]
   else []) ++
  [.sleep (schedule - max (schedule - 60) 0),
   .removeEntry, .insertMessage, .notifySent, .notifyMessage] ++
  (if delete > 0 then [.sleep delete, .deleteMessage, .notifyDelete] else [])

end Sched

namespace Db

/-- A row of the `User` table (`database.py`, lines 28-37). -/
structure UserRec where
  id : Nat
  username : String
  public_key : String
  spk : Option String
  sig : Option String
  status : String
  biography : String
  profile_picture : String
  own_storage : String
  x3dh_requests : String
deriving DecidableEq

/-- A row of the `Relation` table (`database.py`, lines 39-50); primary key
is the ordered pair, `status_code` is one of request / friend / block. -/
structure RelationRec where
  from_user : String
  to_user : String
  status_code : String
deriving DecidableEq

/-- A `DM` row together with its `UserDM` membership rows, the latter in
rowid (insertion) order (`database.py`, lines 52-56 and 74). -/
structure DMRec where
  id : Nat
  users : List String
deriving DecidableEq

/-- A row of the `Message` table (`database.py`, lines 58-65); timestamps
are modelled as `Nat` (the ISO strings compare chronologically). -/
structure MessageRec where
  id : Nat
  dm : Nat
  sender : String
  message : String
  signature : String
  timestamp : Nat
  pinned : Bool
deriving DecidableEq

/-- A row of the `Reaction` table (`database.py`, lines 67-71). -/
structure ReactionRec where
  id : Nat
  message : Nat
  sender : String
  reaction : String
  signature : String
deriving DecidableEq

/-- The SQLite store: each table as its list of rows in rowid (insertion)
order, which is the scan order of the queries below (none of the queries
modelled here carries an `ORDER BY` other than the ones stated). -/
structure Store where
  users : List UserRec
  relations : List RelationRec
  dms : List DMRec
  messages : List MessageRec
  reactions : List ReactionRec
deriving DecidableEq

/-- `user_exists` (`database.py`, lines 475-481). -/
def user_exists (st : Store) (username : String) : Bool :=
  st.users.any (fun u => u.username == username)

/-- `User.get(User.username == username)` as used by `get_user`
(`database.py`, line 105): the unique row with that username. -/
def find_user (st : Store) (username : String) : Option UserRec :=
  st.users.find? (fun u => u.username == username)

/-- `is_relation` (`database.py`, lines 387-398): is there an edge
`u1 → u2` with the given status. -/
def is_relation (st : Store) (u1 u2 status : String) : Bool :=
  st.relations.any (fun r =>
    r.from_user == u1 && r.to_user == u2 && r.status_code == status)

/-- `get_of_status` (`database.py`, lines 422-443): usernames `v` such
that the edge `(v, username)` or `(username, v)` exists with the given
status (bidirectional query over registered users). -/
def get_of_status (st : Store) (username status : String) : List String :=
  (st.users.map (fun u => u.username)).filter (fun v =>
    is_relation st v username status || is_relation st username v status)

/-- The error raised by peewee's `Model.get` / `.get()` when no row
matches (`DoesNotExist`), which `error_wrap` turns into
"Internal server error.". -/
inductive DbErr
  | doesNotExist
deriving DecidableEq

/-- `create_relation` (`database.py`, lines 353-358): `User.get` on both
usernames (raising `DoesNotExist` when absent) and then inserting the
edge. -/
def create_relation (st : Store) (u1 u2 status : String) : Except DbErr Store :=
  if user_exists st u1 && user_exists st u2 then
    .ok { st with relations := st.relations ++ [⟨u1, u2, status⟩] }
  else .error .doesNotExist

/-- `delete_relation` (`database.py`, lines 374-385): `.get()` the edge
`u1 → u2` (raising `DoesNotExist` when absent) and delete it. -/
def delete_relation (st : Store) (u1 u2 : String) : Except DbErr Store :=
  if st.relations.any (fun r => r.from_user == u1 && r.to_user == u2) then
    .ok { st with relations :=
      st.relations.filter (fun r => !(r.from_user == u1 && r.to_user == u2)) }
  else .error .doesNotExist

/-- `dm_exists` (`database.py`, lines 483-489). -/
def dm_exists (st : Store) (dm_id : Nat) : Bool :=
  st.dms.any (fun d => d.id == dm_id)

/-- `user_in_dm` (`database.py`, lines 505-512): a membership row for
this (dm, user) pair exists. -/
def user_in_dm (st : Store) (username : String) (dm_id : Nat) : Bool :=
  st.dms.any (fun d => d.id == dm_id && d.users.contains username)

/-- `leave_dm` (`database.py`, lines 184-188): delete the membership rows
of this user in this DM (the DM row itself is never deleted). -/
def leave_dm (st : Store) (dm_id : Nat) (username : String) : Store :=
  { st with dms := st.dms.map (fun d =>
      if d.id == dm_id then { d with users := d.users.filter (fun u => u != username) } else d) }

/-- The membership part of `get_dm` (`database.py`, lines 136-140): the
query inner-joins `DM → UserDM → User`, so a DM with no remaining
members produces zero rows and `q[0]` raises `IndexError` (modelled as
`.error`). -/
def get_dm (st : Store) (dm_id : Nat) : Except Unit DMRec :=
  match st.dms.find? (fun d => d.id == dm_id) with
  | some d => if d.users.isEmpty then .error () else .ok d
  | none => .error ()

/-- Reactions of one message, in rowid order (`Reaction.select` joined on
the message id). -/
def get_reactions (st : Store) (m_id : Nat) : List ReactionRec :=
  st.reactions.filter (fun r => r.message == m_id)

/-- Messages of one DM in table order. -/
def dm_messages (st : Store) (dm_id : Nat) : List MessageRec :=
  st.messages.filter (fun m => m.dm == dm_id)

/-- `MAX(timestamp)` over the DM's messages (`database.py`, line 150);
`0` stands for SQL NULL on an empty DM (no row then matches because the
DM has no messages at all). -/
def max_timestamp (st : Store) (dm_id : Nat) : Nat :=
  ((dm_messages st dm_id).map (fun m => m.timestamp)).foldl max 0

/-- The rows of the latest-message query of `get_dm` (`database.py`,
lines 143-152): every message of the DM whose timestamp equals the
maximum, LEFT OUTER joined with its reactions — a message with no
reactions contributes a single row whose reaction attribute is absent
(`none`).  The query has no ORDER BY; rows are modelled in rowid-scan
order (message id ascending, reactions in rowid order within each). -/
def latest_rows (st : Store) (dm_id : Nat) : List (MessageRec × Option ReactionRec) :=
  ((dm_messages st dm_id).filter (fun m => m.timestamp == max_timestamp st dm_id)).flatMap
    (fun m => match get_reactions st m.id with
      | [] => [(m, none)]
      | rs => rs.map (fun r => (m, some r)))

/-- Result of the `latest_message` computation of `get_dm`
(`database.py`, lines 154-163): `nothing` for `None`; `attrErr` when the
list comprehension touches a row whose reaction attribute is absent
(Python `AttributeError`, surfacing as "Internal server error."). -/
inductive LatestMessage
  | nothing
  | ok (m : MessageRec) (reactions : List ReactionRec)
  | attrErr
deriving DecidableEq

/-- `get_dm`'s latest-message selection (`database.py`, lines 154-163):
`data[0]` is the first row; if it has a reaction attribute, the reactions
of ALL rows are collected, else the reactions list is empty. -/
def get_dm_latest (st : Store) (dm_id : Nat) : LatestMessage :=
  match latest_rows st dm_id with
  | [] => .nothing
  | r0 :: rest =>
    if r0.2.isSome then
      if (r0 :: rest).all (fun r => r.2.isSome) then
        .ok r0.1 ((r0 :: rest).filterMap (fun r => r.2))
      else .attrErr
    else .ok r0.1 []

/-- `get_messages` (`database.py`, lines 232-269): messages of the DM
with `timestamp < cursor`, ordered by timestamp DESC (stable w.r.t. the
table order for equal timestamps), limited to `count`.  The reaction
decoration of the returned dicts is not modelled; the claims below
concern the message sequence. -/
def get_messages (st : Store) (dm_id : Nat) (cursor : Nat) (count : Nat) : List MessageRec :=
  ((st.messages.filter (fun m => m.dm == dm_id && m.timestamp < cursor)).mergeSort
      (fun a b => b.timestamp ≤ a.timestamp)).take count

/-- The repeated-call sequence of the pagination claim: page `0` is
`get_messages st dm cursor limit`; page `k+1` passes the timestamp of the
last message of page `k` as its cursor (and is empty once some page came
back empty, the client's stopping condition). -/
def pageSeq (st : Store) (dm_id : Nat) (limit : Nat) (cursor : Nat) : Nat → List MessageRec
  | 0 => get_messages st dm_id cursor limit
  | k + 1 =>
    match (pageSeq st dm_id limit cursor k).getLast? with
    | none => []
    | some m => get_messages st dm_id m.timestamp limit

/-- The full message history of a DM, newest first (the reference order
the pagination claim is measured against: the DM's messages sorted by
timestamp descending). -/
def history (st : Store) (dm_id : Nat) : List MessageRec :=
  (dm_messages st dm_id).mergeSort (fun a b => b.timestamp ≤ a.timestamp)

end Db

namespace Utils

/-- `utils.unfriend` (`utils.py`, lines 35-44): delete the friend edge in
whichever direction it is stored. -/
def unfriend (st : Db.Store) (u1 u2 : String) : Except Db.DbErr Db.Store :=
  if Db.is_relation st u1 u2 "friend" then Db.delete_relation st u1 u2
  else Db.delete_relation st u2 u1

end Utils

namespace Events

/-- A handler's acknowledgement: `ok` for `(True, ...)`, `err m` for an
explicit `(False, m)` return, `internalErr` for an uncaught exception
turned into "Internal server error." by `error_wrap` (`events.py`,
lines 18-39). -/
inductive Outcome
  | ok
  | err (msg : String)
  | internalErr
deriving DecidableEq

/-- `block_user` (`events.py`, lines 700-721), paired with the store
state left behind: the guard tests `db.user_exists(sender)` (the
logged-in sender, not the target) and `db.is_relation(sender, username,
"block")`; then unfriends if friends, retracts a pending request, and
inserts the block edge.  Each `Db` call is its own transaction
(`atomic_wrapper`, `database.py` lines 84-90): a failing call rolls back
only itself, anything before it stays committed. -/
def block_user (st : Db.Store) (sender target : String) : Outcome × Db.Store :=
  if !Db.user_exists st sender || Db.is_relation st sender target "block" then
    (.err "You cannot block that user.", st)
  else
    match (if (Db.get_of_status st sender "friend").contains target
           then Utils.unfriend st sender target else .ok st) with
    | .error _ => (.internalErr, st)
    | .ok st1 =>
      match (if Db.is_relation st1 sender target "request"
             then Db.delete_relation st1 sender target else .ok st1) with
      | .error _ => (.internalErr, st1)
      | .ok st2 =>
        match Db.create_relation st2 sender target "block" with
        | .error _ => (.internalErr, st2)
        | .ok st3 => (.ok, st3)

/-- `leave_dm` (`events.py`, lines 341-361), paired with the resulting
store: after the access check the membership rows are deleted
(committed), and only then does the notification block call
`db.get_dm(dm_id)` — which raises `IndexError` when the leaver was the
last member, so the handler reports "Internal server error." with the
deletion already persisted. -/
def leave_dm (st : Db.Store) (username : String) (dm_id : Nat) : Outcome × Db.Store :=
  if !Db.dm_exists st dm_id || !Db.user_in_dm st username dm_id then
    (.err "You do not have access to that DM.", st)
  else
    match Db.get_dm (Db.leave_dm st dm_id username) dm_id with
    | .error _ => (.internalErr, Db.leave_dm st dm_id username)
    | .ok _ => (.ok, Db.leave_dm st dm_id username)

/-- The validation prefix of a DM-scoped message handler. -/
inductive GuardOutcome
  | accessErr
  | friendsErr
  | internalErr
  | proceeds
deriving DecidableEq

/-- The validation prefix of `send_message` (`events.py`, lines 370-379):
access check, then — whenever the DM currently has exactly two members —
the friendship test `dm["users"][1] not in db.get_of_status(dm["users"][0],
"friend")`.  `proceeds` stands for the rest of the handler (signature
check and insert/schedule). -/
def send_message_guard (st : Db.Store) (username : String) (dm_id : Nat) : GuardOutcome :=
  if !Db.dm_exists st dm_id || !Db.user_in_dm st username dm_id then .accessErr
  else
    match Db.get_dm st dm_id with
    | .error _ => .internalErr
    | .ok d =>
      match d.users with
      | [u0, u1] =>
        if !(Db.get_of_status st u0 "friend").contains u1 then .friendsErr else .proceeds
      | _ => .proceeds

/-- The validation prefix of `ping_typing` (`events.py`, lines 584-593):
identical structure — `users = db.get_dm(dm_id)["users"]`, and when
`len(users) == 2`, the test `users[1] not in db.get_of_status(users[0],
"friend")`. -/
def ping_typing_guard (st : Db.Store) (username : String) (dm_id : Nat) : GuardOutcome :=
  if !Db.dm_exists st dm_id || !Db.user_in_dm st username dm_id then .accessErr
  else
    match Db.get_dm st dm_id with
    | .error _ => .internalErr
    | .ok d =>
      match d.users with
      | [u0, u1] =>
        if !(Db.get_of_status st u0 "friend").contains u1 then .friendsErr else .proceeds
      | _ => .proceeds

/-- Per-connection session state (`app.py`, lines 17-22 initialize it;
`events.py` mutates it).  `lockout_start` is a timestamp in seconds
(`datetime(1,1,1)` is a far-past sentinel). -/
structure Session where
  logged_in : Bool
  username : String
  challenge_response : Option String
  login_fails : Nat
  lockout_start : Int
deriving DecidableEq

/-- The session created by `connect` (`app.py`, lines 17-22), with the
far-past `datetime(1,1,1)` sentinel as a large negative timestamp. -/
def connect_session : Session :=
  { logged_in := false, username := "", challenge_response := none,
    login_fails := 0, lockout_start := -62135596800 }

/-- The `result` half of an auth handler's return value. -/
inductive AuthRes
  | errmsg (m : String)
  | challenge (c : String)
  | done
deriving DecidableEq

/-- `val[1] + suffix` as performed by `login_fail_wrap` on a failure
message (`events.py`, lines 61 and 65). -/
def appendMsg (r : AuthRes) (suffix : String) : AuthRes :=
  match r with
  | .errmsg m => .errmsg (m ++ suffix)
  | r => r

/-- The remaining-attempts suffix of `login_fail_wrap` (line 65). -/
def remainingMsg (n : Nat) : String :=
  " " ++ toString n ++ " attempts left before lockout."

/-- `login` (`events.py`, lines 91-107), with the fresh challenge pair
produced by `Ed25519.generate_challenge` passed in as `(chal, resp)`
(it is freshly random in the source). -/
def login (st : Db.Store) (chal resp : String) (username : String) (s : Session) :
    (Bool × AuthRes) × Session :=
  if !Db.user_exists st username then ((false, .errmsg "User does not exist."), s)
  else if s.logged_in then ((false, .errmsg "Already logged in."), s)
  else ((true, .challenge chal),
        { s with challenge_response := some resp, username := username })

/-- `login_challenge_response` (`events.py`, lines 109-131): reject when
no expected value is pending; otherwise delete the pending value
unconditionally, compare, and on a match set `logged_in` and clear
`login_fails`.  (The subsequent room joins and the profile broadcast do
not touch the session.) -/
def login_challenge_response (response : String) (s : Session) :
    (Bool × AuthRes) × Session :=
  match s.challenge_response with
  | none => ((false, .errmsg "Not expecting a challenge response right now."), s)
  | some expected =>
    if expected != response then
      ((false, .errmsg "Incorrect response."), { s with challenge_response := none })
    else
      ((true, .done),
       { s with challenge_response := none, logged_in := true, login_fails := 0 })

/-- `login_fail_wrap` (`events.py`, lines 41-67): reject while
`now - lockout_start < 60`; otherwise run the wrapped handler, and on a
failure increment `login_fails`, arming `lockout_start := now` once the
counter reaches 10. -/
def login_fail_wrap (f : Session → (Bool × AuthRes) × Session) (now : Int) (s : Session) :
    (Bool × AuthRes) × Session :=
  if now - s.lockout_start < 60 then
    ((false, .errmsg "You have been locked out for 60 seconds."), s)
  else
    let r := f s
    if !r.1.1 then
      if r.2.login_fails + 1 ≥ 10 then
        ((false, appendMsg r.1.2 " You have been locked out for 60 seconds."),
         { r.2 with login_fails := r.2.login_fails + 1, lockout_start := now })
      else
        ((false, appendMsg r.1.2 (remainingMsg (10 - (r.2.login_fails + 1)))),
         { r.2 with login_fails := r.2.login_fails + 1 })
    else r

/-- The two auth-class events, as dispatched through `login_fail_wrap`
(`events.py`, lines 91-131). -/
inductive AuthEvent
  | loginEv (username chal resp : String)
  | challengeResponseEv (response : String)
deriving DecidableEq

/-- One auth attempt on a connection: the wrapped `login` or
`login_challenge_response` at wall-clock time `now`. -/
def auth_step (st : Db.Store) (ev : AuthEvent) (now : Int) (s : Session) :
    (Bool × AuthRes) × Session :=
  match ev with
  | .loginEv username chal resp => login_fail_wrap (login st chal resp username) now s
  | .challengeResponseEv r => login_fail_wrap (login_challenge_response r) now s

/-- The profile dict assembled by `get_user` (`events.py`, line 174):
the user row minus `id`, `own_storage` and `x3dh_requests`. -/
structure Profile where
  username : String
  public_key : String
  spk : Option String
  sig : Option String
  status : String
  biography : String
  profile_picture : String
deriving DecidableEq

/-- `utils.exclude_keys(db.get_user(username), ["id", "own_storage",
"x3dh_requests"])`. -/
def profileOf (u : Db.UserRec) : Profile :=
  ⟨u.username, u.public_key, u.spk, u.sig, u.status, u.biography, u.profile_picture⟩

/-- `notifications.is_user_online` (`notifications.py`, lines 121-122):
the user's set of live connection ids is nonempty. -/
def is_user_online (name_map : String → List String) (username : String) : Bool :=
  (name_map username).length > 0

/-- The acknowledgement of `get_user`. -/
inductive GetUserRes
  | failure (msg : String)
  | success (p : Profile)
deriving DecidableEq

/-- `get_user` (`events.py`, lines 166-181), paired with the store it
leaves behind: the handler only issues SELECTs, so the store passes
through untouched; the `status` field of the response is overridden to
"offline" whenever the target has no online connection. -/
def get_user (st : Db.Store) (name_map : String → List String) (username : String) :
    GetUserRes × Db.Store :=
  match Db.find_user st username with
  | none => (.failure "User does not exist.", st)
  | some u =>
    if !is_user_online name_map username then
      (.success { profileOf u with status := "offline" }, st)
    else (.success (profileOf u), st)

end Events

namespace Ex

/-- C2 example: a DM whose two messages share the maximal timestamp. -/
def c2M1 : Db.MessageRec := ⟨1, 1, "alice", "m1", "s1", 5, false⟩

/-- C2 example: the tied message with the higher id. -/
def c2M2 : Db.MessageRec := ⟨2, 1, "alice", "m2", "s2", 5, false⟩

/-- C2 example store. -/
def c2Store : Db.Store :=
  { users := [⟨1, "alice", "aa", none, none, "online", "", "", "", "[]"⟩],
    relations := [], dms := [⟨1, ["alice"]⟩], messages := [c2M1, c2M2], reactions := [] }

/-- C3 failing input: "alice" is registered and logged in, the block
target "ghost" is not registered, no relations exist. -/
def c3Store : Db.Store :=
  { users := [⟨1, "alice", "aa", none, none, "online", "", "", "", "[]"⟩],
    relations := [], dms := [], messages := [], reactions := [] }

/-- C4 witness store: the user "alice" exists. -/
def c4Store : Db.Store :=
  { users := [⟨1, "alice", "aa", none, none, "online", "", "", "", "[]"⟩],
    relations := [], dms := [], messages := [], reactions := [] }

/-- C4 witness session: 10 failures accumulated, lockout armed at time 0. -/
def c4Session : Events.Session :=
  { logged_in := false, username := "", challenge_response := none,
    login_fails := 10, lockout_start := 0 }

/-- C6 counterexample store: DM 1 whose sole remaining member is "alice". -/
def c6Store : Db.Store :=
  { users := [⟨1, "alice", "aa", none, none, "online", "", "", "", "[]"⟩],
    relations := [], dms := [⟨1, ["alice"]⟩], messages := [], reactions := [] }

/-- C7 example: first of two messages tied on the timestamp. -/
def c7M1 : Db.MessageRec := ⟨1, 1, "alice", "a", "sa", 5, false⟩

/-- C7 example: second tied message, lost by the pagination. -/
def c7M2 : Db.MessageRec := ⟨2, 1, "alice", "b", "sb", 5, false⟩

/-- C7 counterexample store. -/
def c7Store : Db.Store :=
  { users := [⟨1, "alice", "aa", none, none, "online", "", "", "", "[]"⟩],
    relations := [], dms := [⟨1, ["alice"]⟩], messages := [c7M1, c7M2], reactions := [] }

/-- C7 witness store: two messages with distinct timestamps. -/
def c7StoreD : Db.Store :=
  { users := [⟨1, "alice", "aa", none, none, "online", "", "", "", "[]"⟩],
    relations := [], dms := [⟨1, ["alice"]⟩],
    messages := [⟨1, 1, "alice", "a", "sa", 5, false⟩, ⟨2, 1, "alice", "b", "sb", 3, false⟩],
    reactions := [] }

/-- C9 witness store: an individual DM between friends "alice" and "bob". -/
def c9Store : Db.Store :=
  { users := [⟨1, "alice", "aa", none, none, "online", "", "", "", "[]"⟩,
              ⟨2, "bob", "bb", none, none, "online", "", "", "", "[]"⟩],
    relations := [⟨"alice", "bob", "friend"⟩],
    dms := [⟨1, ["alice", "bob"]⟩], messages := [], reactions := [] }

/-- C10 witness store: "bob" exists with stored status "busy". -/
def c10Store : Db.Store :=
  { users := [⟨1, "bob", "bb", none, none, "busy", "bio", "pic", "own", "[]"⟩],
    relations := [], dms := [], messages := [], reactions := [] }

end Ex

/-! ## Theorems -/

set_option maxRecDepth 10000

namespace Ed25519

theorem powModAux_eq (m : Nat) (hm : 0 < m) :
    ∀ fuel b e acc, e < 2 ^ fuel → acc < m →
      powModAux m fuel b e acc = acc * b ^ e % m := by
  intro fuel
  induction fuel with
  | zero =>
    intro b e acc he hacc
    interval_cases e
    simp [powModAux, Nat.mod_eq_of_lt hacc]
  | succ n ih =>
    intro b e acc he hacc
    by_cases h0 : e = 0
    · subst h0
      simp [powModAux, Nat.mod_eq_of_lt hacc]
    · rw [powModAux, if_neg h0]
      have he2 : e / 2 < 2 ^ n := by
        rw [pow_succ] at he
        omega
      have hacc2 : (if e % 2 = 1 then acc * b % m else acc) < m := by
        split
        · exact Nat.mod_lt _ hm
        · exact hacc
      rw [ih _ _ _ he2 hacc2]
      have hpow : (b * b % m) ^ (e / 2) % m = b ^ (2 * (e / 2)) % m := by
        rw [← Nat.pow_mod, ← pow_two, ← pow_mul]
      rcases Nat.mod_two_eq_zero_or_one e with hpar | hpar
      · rw [if_neg (by omega)]
        rw [Nat.mul_mod acc, hpow, ← Nat.mul_mod]
        have h2 : 2 * (e / 2) = e := by omega
        rw [h2]
      · rw [if_pos hpar]
        rw [Nat.mul_mod, Nat.mod_mod, hpow, ← Nat.mul_mod]
        conv_rhs => rw [show e = 2 * (e / 2) + 1 from by omega]
        rw [pow_succ]
        congr 1
        ring

theorem powMod_eq {m : Nat} (hm : 0 < m) {e : Nat} (he : e < 2 ^ 256) (b : Nat) :
    powMod b e m = b ^ e % m := by
  rw [powMod, powModAux_eq m hm 256 _ _ _ he (Nat.mod_lt _ hm)]
  rw [Nat.mul_mod, Nat.mod_mod, ← Nat.pow_mod, ← Nat.mul_mod, one_mul]

theorem pyPowMod_eq {m : Nat} (hm : 0 < m) {e : Nat} (he : e < 2 ^ 256) (b : Int) :
    pyPowMod b e m = b ^ e % (m : Int) := by
  rw [pyPowMod, powMod_eq hm he]
  have hnn : 0 ≤ b % (m : Int) := Int.emod_nonneg b (by exact_mod_cast hm.ne')
  have h1 : Int.ModEq (m : Int) (b % (m : Int)) b := Int.emod_emod_of_dvd b dvd_rfl
  push_cast [Int.toNat_of_nonneg hnn]
  exact h1.pow e

theorem pyPowMod_range {m : Nat} (hm : 0 < m) {e : Nat} (he : e < 2 ^ 256) (b : Int) :
    0 ≤ pyPowMod b e m ∧ pyPowMod b e m < (m : Int) := by
  rw [pyPowMod_eq hm he]
  constructor
  · exact Int.emod_nonneg _ (by exact_mod_cast hm.ne')
  · exact Int.emod_lt_of_pos _ (by exact_mod_cast hm)

theorem q_pos : 0 < q := by decide

theorem xrecover_range (y : Int) :
    0 ≤ xrecover y ∧ xrecover y < (q : Int) ∧ xrecover y % 2 = 0 := by
  rw [xrecover]
  have hq : (0 : Int) < (q : Int) := by exact_mod_cast q_pos
  have hqodd : (q : Int) % 2 = 1 := by decide
  have h8 : (q + 3) / 8 < 2 ^ 256 := by decide
  set xx : Int := (y * y - 1) * inv (d * y * y + 1) with hxx
  obtain ⟨h1, h2⟩ := pyPowMod_range q_pos h8 xx
  set x0 : Int := pyPowMod xx ((q + 3) / 8) q with hx0
  set x1 : Int := if (x0 * x0 - xx) % (q : Int) ≠ 0 then x0 * I % (q : Int) else x0 with hx1
  have h3 : 0 ≤ x1 ∧ x1 < (q : Int) := by
    rw [hx1]
    split
    · exact ⟨Int.emod_nonneg _ hq.ne', Int.emod_lt_of_pos _ hq⟩
    · exact ⟨h1, h2⟩
  split
  · rename_i hodd
    obtain ⟨h4, h5⟩ := h3
    refine ⟨by omega, by omega, by omega⟩
  · rename_i heven
    obtain ⟨h4, h5⟩ := h3
    refine ⟨h4, h5, by omega⟩

theorem lor_high (a b : Nat) (ha : a ≤ 1) (hb : b < 2 ^ 255) :
    (a <<< 255) ||| b = 2 ^ 255 * a + b := by
  interval_cases a
  · simp
  · rw [Nat.shiftLeft_eq, one_mul, mul_one]
    apply Nat.eq_of_testBit_eq
    intro i
    rw [Nat.testBit_or]
    rcases lt_trichotomy i 255 with h | h | h
    · rw [Nat.testBit_two_pow_of_ne (by omega), Nat.testBit_two_pow_add_gt h]
      simp
    · subst h
      rw [Nat.testBit_two_pow_self, Nat.testBit_two_pow_add_eq, Nat.testBit_lt_two_pow hb]
      simp
    · have hle : (2:Nat) ^ 256 ≤ 2 ^ i := Nat.pow_le_pow_right (by omega) (by omega)
      have h2 : (2:Nat) ^ 256 = 2 ^ 255 + 2 ^ 255 := by rw [pow_succ]; omega
      have h1 : 2 ^ 255 + b < 2 ^ i := by omega
      rw [Nat.testBit_lt_two_pow h1, Nat.testBit_two_pow_of_ne (by omega),
          Nat.testBit_lt_two_pow (by omega)]
      simp

/-- **C8.** For every valid compressed Ed25519 key `k` — a 32-byte value
(the hex string is in bijection with `k < 2 ^ 256`) that decompresses
successfully and is the canonical encoding of its point (`y`-part below
`q`, and for the point with `x = 0` a clear sign bit) —
`compress_key (decompress_key k) = k`. -/
theorem ed25519_round_trip (k : Nat) (hk : k < 2 ^ 256) (x y : Int)
    (hdec : decompress_key k = some (x, y))
    (hy : k % 2 ^ 255 < q)
    (hx0 : x = 0 → k >>> 255 = 0) :
    compress_key (x, y) = k := by
  have hq0 : (0:Int) < (q:Int) := by exact_mod_cast q_pos
  have hqodd : ((q:Nat) : Int) % 2 = 1 := by decide
  rw [decompress_key] at hdec
  split at hdec
  case isFalse => exact absurd hdec (by simp)
  case isTrue hcurve =>
  simp only [Option.some.injEq, Prod.mk.injEq] at hdec
  obtain ⟨hx, hyy⟩ := hdec
  set Y : Int := ((k % 2 ^ 255 : Nat) : Int) with hY
  have hYnn : 0 ≤ Y := by rw [hY]; exact Int.natCast_nonneg _
  have hYlt : Y < (q : Int) := by rw [hY]; exact_mod_cast hy
  have hYmod : Y % (q:Int) = Y := Int.emod_eq_of_lt hYnn hYlt
  rw [hYmod] at hyy
  obtain ⟨hX0nn, hX0lt, hX0par⟩ := xrecover_range Y
  set X0 : Int := xrecover Y with hX0
  have hodd2 : k >>> 255 = k / 2 ^ 255 := Nat.shiftRight_eq_div_pow k 255
  have hoddlt : k / 2 ^ 255 < 2 := Nat.div_lt_of_lt_mul (by rw [pow_succ] at hk; omega)
  have hsplit : 2 ^ 255 * (k >>> 255) + k % 2 ^ 255 = k := by
    rw [hodd2]; exact Nat.div_add_mod k (2 ^ 255)
  have hmlt : k % 2 ^ 255 < 2 ^ 255 := Nat.mod_lt k (by positivity)
  have hytn : y.toNat = k % 2 ^ 255 := by rw [← hyy, hY, Int.toNat_ofNat]
  rcases (show k >>> 255 = 0 ∨ k >>> 255 = 1 by omega) with ho | ho
  · have hxval : decompress_x k = X0 := by
      rw [decompress_x, ← hY, ← hX0, ho]
      rw [if_neg]
      push_cast
      omega
    rw [hxval] at hx
    have hxeq : x = X0 := by rw [← hx]; exact Int.emod_eq_of_lt hX0nn hX0lt
    have hpar : (x % 2).toNat = 0 := by rw [hxeq]; omega
    rw [compress_key, compress, hpar, hytn, lor_high 0 _ (by omega) hmlt]
    omega
  · have hxval : decompress_x k = (q : Int) - X0 := by
      rw [decompress_x, ← hY, ← hX0, ho]
      rw [if_pos]
      push_cast
      omega
    rw [hxval] at hx
    rcases eq_or_lt_of_le hX0nn with hz | hz
    · exfalso
      have : x = 0 := by rw [← hx, ← hz, sub_zero, Int.emod_self]
      rw [ho] at hx0
      exact absurd (hx0 this) (by omega)
    · have hxeq : x = (q:Int) - X0 := by
        rw [← hx]
        exact Int.emod_eq_of_lt (by omega) (by omega)
      have hpar : (x % 2).toNat = 1 := by rw [hxeq]; omega
      rw [compress_key, compress, hpar, hytn, lor_high 1 _ (by omega) hmlt]
      omega

/-- Witness for C8: the canonical encoding of the Ed25519 base point
round-trips; every hypothesis of `ed25519_round_trip` is discharged at
this concrete key by evaluation. -/
theorem ed25519_round_trip_witness :
    compress_key
        (15112221349535400772501151409588531511454012693041857206046113283949847762202,
         46316835694926478169428394003475163141307993866256225615783033603165251855960) =
      46316835694926478169428394003475163141307993866256225615783033603165251855960 :=
  ed25519_round_trip
    46316835694926478169428394003475163141307993866256225615783033603165251855960
    (by decide)
    15112221349535400772501151409588531511454012693041857206046113283949847762202
    46316835694926478169428394003475163141307993866256225615783033603165251855960
    (by decide) (by decide) (by decide)

end Ed25519

namespace Sched

/-- **C1 (counterexample).** The claim asserts that for every accepted
`send_message` with `schedule > 0` — explicitly including
`0 < schedule ≤ 60` — the task emits a `scheduled_soon_notification`
after its first sleep.  At `schedule = 30` the code's `if pre > 0` guard
skips the notification entirely: no `notifySoon` action occurs in the
trace. -/
theorem schedule_soon_counterexample :
    (0 : Int) < 30 ∧ Action.notifySoon ∉ schedule_handler 30 0 := by decide

/-- **C1 (amended).** For every accepted `send_message` with
`schedule > 0`: when `schedule > 60` the task sleeps `schedule - 60`
seconds, emits the will-send-soon notification, sleeps the remaining 60
seconds, removes the registry entry and inserts the message; when
`0 < schedule ≤ 60` no will-send-soon notification is emitted — the task
sleeps the whole `schedule` seconds and proceeds directly to removal and
insertion. -/
theorem schedule_trace (schedule delete : Int) (hs : 0 < schedule) :
    (schedule ≤ 60 →
      schedule_handler schedule delete =
        .sleep schedule :: .removeEntry :: .insertMessage :: .notifySent :: .notifyMessage ::
          (if delete > 0 then [.sleep delete, .deleteMessage, .notifyDelete] else [])) ∧
    (60 < schedule →
      schedule_handler schedule delete =
        .sleep (schedule - 60) :: .notifySoon :: .sleep 60 :: .removeEntry :: .insertMessage ::
          .notifySent :: .notifyMessage ::
          (if delete > 0 then [.sleep delete, .deleteMessage, .notifyDelete] else [])) := by
  constructor
  · intro h
    have hmax : max (schedule - 60) 0 = 0 := by omega
    rw [schedule_handler, hmax]
    simp
  · intro h
    have hmax : max (schedule - 60) 0 = schedule - 60 := by omega
    have hpost : schedule - (schedule - 60) = 60 := by omega
    rw [schedule_handler, hmax, hpost, if_pos (by omega)]
    simp

/-- Witness for C1 (amended), at `schedule = 120`, `delete = 0`. -/
theorem schedule_trace_witness :
    schedule_handler 120 0 =
      [.sleep 60, .notifySoon, .sleep 60, .removeEntry, .insertMessage,
       .notifySent, .notifyMessage] := by
  have h := (schedule_trace 120 0 (by decide)).2 (by decide)
  simpa using h

end Sched

namespace Events

/-- **C3 (code bug).** `block_user` guards on `db.user_exists(sender)` —
the logged-in sender, who always exists — instead of the target, so
blocking a nonexistent target is not caught by validation: the final
`db.create_relation` raises peewee's `DoesNotExist`, and the handler
reports "Internal server error." instead of a specific user-facing
message.  Evaluation at the failing input: registered sender "alice",
unregistered target "ghost". -/
theorem block_user_missing_target_internal_error :
    block_user Ex.c3Store "alice" "ghost" = (.internalErr, Ex.c3Store) ∧
    Db.user_exists Ex.c3Store "ghost" = false := by decide

/-- **C5.** `login_challenge_response`: with no pending expected value the
call fails; the pending value is deleted before returning in every case
(single use, even on failure); the call succeeds exactly when the
response equals the pending value; and on success `logged_in` is set and
`login_fails` is reset to 0. -/
theorem challenge_response_spec (s : Session) (response : String) :
    (s.challenge_response = none →
      login_challenge_response response s =
        ((false, .errmsg "Not expecting a challenge response right now."), s))
  ∧ (login_challenge_response response s).2.challenge_response = none
  ∧ (∀ e, s.challenge_response = some e →
      ((login_challenge_response response s).1.1 = true ↔ response = e))
  ∧ (∀ e, s.challenge_response = some e → response = e →
      login_challenge_response response s =
        ((true, .done),
         { s with challenge_response := none, logged_in := true, login_fails := 0 })) := by
  refine ⟨?_, ?_, ?_, ?_⟩
  · intro h
    simp [login_challenge_response, h]
  · cases hc : s.challenge_response with
    | none => simp [login_challenge_response, hc]
    | some e =>
      simp only [login_challenge_response, hc]
      split <;> rfl
  · intro e he
    by_cases hr : e = response
    · subst hr
      simp [login_challenge_response, he]
    · simp [login_challenge_response, he, hr, Ne.symm hr]
  · intro e he hr
    subst hr
    simp [login_challenge_response, he]

/-- Witness for C5, at a concrete session holding the pending value
"expected" and the matching response. -/
theorem challenge_response_spec_witness :
    login_challenge_response "expected"
        { logged_in := false, username := "alice", challenge_response := some "expected",
          login_fails := 3, lockout_start := 0 } =
      ((true, .done),
       { logged_in := true, username := "alice", challenge_response := none,
         login_fails := 0, lockout_start := 0 }) :=
  (challenge_response_spec
      { logged_in := false, username := "alice", challenge_response := some "expected",
        login_fails := 3, lockout_start := 0 } "expected").2.2.2 "expected" rfl rfl

/-- **C10.** For every existing target user, `get_user` returns the
profile with `status` overridden to "offline" whenever the target has no
online connection — regardless of the stored status — and returns the
stored status unchanged when at least one connection is online; the
handler leaves the store untouched in both cases. -/
theorem get_user_offline_override (st : Db.Store) (nm : String → List String)
    (target : String) (u : Db.UserRec) (hfind : Db.find_user st target = some u) :
    (nm target = [] →
      get_user st nm target = (.success { profileOf u with status := "offline" }, st))
  ∧ (nm target ≠ [] →
      get_user st nm target = (.success (profileOf u), st)) := by
  constructor
  · intro h
    simp [get_user, hfind, is_user_online, h]
  · intro h
    have hp : 0 < (nm target).length := List.length_pos.mpr h
    simp [get_user, hfind, is_user_online, hp]

/-- Witness for C10: with no online connection for "bob", the stored
status "busy" is reported as "offline" and the store is unchanged. -/
theorem get_user_offline_override_witness :
    get_user Ex.c10Store (fun _ => []) "bob" =
      (.success ⟨"bob", "bb", none, none, "offline", "bio", "pic"⟩, Ex.c10Store) :=
  (get_user_offline_override Ex.c10Store (fun _ => []) "bob"
      ⟨1, "bob", "bb", none, none, "busy", "bio", "pic", "own", "[]"⟩ (by decide)).1 rfl

end Events

namespace Db

theorem get_of_status_contains (st : Store) (u s v : String) :
    (get_of_status st u s).contains v = true ↔
      (user_exists st v = true ∧
        (is_relation st v u s = true ∨ is_relation st u v s = true)) := by
  simp [get_of_status, user_exists, List.mem_filter, List.mem_map, List.any_eq_true]

end Db

namespace Events

theorem send_message_guard_pair (st : Db.Store) (dm_id : Nat) (d : Db.DMRec)
    (u0 u1 c : String)
    (hd : st.dms.find? (fun x => x.id == dm_id) = some d)
    (hu : d.users = [u0, u1])
    (hc : Db.user_in_dm st c dm_id = true) :
    send_message_guard st c dm_id =
      (if !(Db.get_of_status st u0 "friend").contains u1 then .friendsErr
       else .proceeds) := by
  have hmem := List.mem_of_find?_eq_some hd
  have hpred := List.find?_some hd
  have hex : Db.dm_exists st dm_id = true := by
    simp only [Db.dm_exists, List.any_eq_true]
    exact ⟨d, hmem, hpred⟩
  simp [send_message_guard, Db.get_dm, hd, hu, hex, hc]

theorem ping_typing_guard_pair (st : Db.Store) (dm_id : Nat) (d : Db.DMRec)
    (u0 u1 c : String)
    (hd : st.dms.find? (fun x => x.id == dm_id) = some d)
    (hu : d.users = [u0, u1])
    (hc : Db.user_in_dm st c dm_id = true) :
    ping_typing_guard st c dm_id =
      (if !(Db.get_of_status st u0 "friend").contains u1 then .friendsErr
       else .proceeds) := by
  have hmem := List.mem_of_find?_eq_some hd
  have hpred := List.find?_some hd
  have hex : Db.dm_exists st dm_id = true := by
    simp only [Db.dm_exists, List.any_eq_true]
    exact ⟨d, hmem, hpred⟩
  simp [ping_typing_guard, Db.get_dm, hd, hu, hex, hc]

/-- **C9.** For every DM whose current member list is exactly `[u0, u1]`
(however it got to two members), `send_message` and `ping_typing` fail
with the need-to-be-friends error precisely when no friend edge exists
between `u0` and `u1` in either direction — the test compares `users[0]`
against `users[1]` and its outcome is the same for every caller that
passes the access check. -/
theorem dm_pair_friend_guard (st : Db.Store) (dm_id : Nat) (d : Db.DMRec) (u0 u1 : String)
    (hd : st.dms.find? (fun x => x.id == dm_id) = some d)
    (hu : d.users = [u0, u1])
    (h1 : Db.user_exists st u1 = true) :
    (∀ c, Db.user_in_dm st c dm_id = true →
      (send_message_guard st c dm_id = .friendsErr ↔
        ¬(Db.is_relation st u0 u1 "friend" = true ∨ Db.is_relation st u1 u0 "friend" = true)))
  ∧ (∀ c, Db.user_in_dm st c dm_id = true →
      (ping_typing_guard st c dm_id = .friendsErr ↔
        ¬(Db.is_relation st u0 u1 "friend" = true ∨ Db.is_relation st u1 u0 "friend" = true)))
  ∧ (∀ c c2, Db.user_in_dm st c dm_id = true → Db.user_in_dm st c2 dm_id = true →
      send_message_guard st c dm_id = send_message_guard st c2 dm_id ∧
      ping_typing_guard st c dm_id = ping_typing_guard st c2 dm_id) := by
  have hiff : (Db.get_of_status st u0 "friend").contains u1 = true ↔
      (Db.is_relation st u1 u0 "friend" = true ∨ Db.is_relation st u0 u1 "friend" = true) := by
    rw [Db.get_of_status_contains]
    exact ⟨fun h => h.2, fun h => ⟨h1, h⟩⟩
  have hkey : ∀ g : GuardOutcome,
      g = (if !(Db.get_of_status st u0 "friend").contains u1 then .friendsErr
           else .proceeds) →
      (g = .friendsErr ↔
        ¬(Db.is_relation st u0 u1 "friend" = true ∨
          Db.is_relation st u1 u0 "friend" = true)) := by
    intro g hg
    by_cases hcont : (Db.get_of_status st u0 "friend").contains u1 = true
    · have hdis := hiff.mp hcont
      rw [hg, hcont]
      exact iff_of_false (by simp) (not_not_intro hdis.symm)
    · have hnd : ¬(Db.is_relation st u0 u1 "friend" = true ∨
          Db.is_relation st u1 u0 "friend" = true) :=
        fun h => hcont (hiff.mpr h.symm)
      have hcf : (Db.get_of_status st u0 "friend").contains u1 = false := by
        simpa using hcont
      rw [hg, hcf]
      exact iff_of_true rfl hnd
  refine ⟨?_, ?_, ?_⟩
  · intro c hc
    exact hkey _ (send_message_guard_pair st dm_id d u0 u1 c hd hu hc)
  · intro c hc
    exact hkey _ (ping_typing_guard_pair st dm_id d u0 u1 c hd hu hc)
  · intro c c2 hc hc2
    rw [send_message_guard_pair st dm_id d u0 u1 c hd hu hc,
        send_message_guard_pair st dm_id d u0 u1 c2 hd hu hc2,
        ping_typing_guard_pair st dm_id d u0 u1 c hd hu hc,
        ping_typing_guard_pair st dm_id d u0 u1 c2 hd hu hc2]
    exact ⟨rfl, rfl⟩

/-- Witness for C9, on an individual DM between friends "alice" and
"bob": the guard does not report the friends error. -/
theorem dm_pair_friend_guard_witness :
    send_message_guard Ex.c9Store "alice" 1 = .friendsErr ↔
      ¬(Db.is_relation Ex.c9Store "alice" "bob" "friend" = true ∨
        Db.is_relation Ex.c9Store "bob" "alice" "friend" = true) :=
  (dm_pair_friend_guard Ex.c9Store 1 ⟨1, ["alice", "bob"]⟩ "alice" "bob"
      (by decide) rfl (by decide)).1 "alice" (by decide)

end Events

namespace Db

theorem delete_relation_ok (st : Store) (a b s : String)
    (h : is_relation st a b s = true) :
    delete_relation st a b =
      .ok { st with relations :=
        st.relations.filter (fun r => !(r.from_user == a && r.to_user == b)) } := by
  have hc : (st.relations.any fun r => r.from_user == a && r.to_user == b) = true := by
    simp only [is_relation, List.any_eq_true, Bool.and_eq_true, beq_iff_eq] at h
    obtain ⟨r, hr, h12, h3⟩ := h
    simp only [List.any_eq_true, Bool.and_eq_true, beq_iff_eq]
    exact ⟨r, hr, h12⟩
  rw [delete_relation, if_pos hc]

theorem create_relation_ok (st : Store) (a b s : String)
    (ha : user_exists st a = true) (hb : user_exists st b = true) :
    create_relation st a b s = .ok { st with relations := st.relations ++ [⟨a, b, s⟩] } := by
  rw [create_relation, if_pos]
  rw [ha, hb]
  rfl

theorem user_exists_congr (st1 st2 : Store) (h : st1.users = st2.users) (v : String) :
    user_exists st1 v = user_exists st2 v := by
  rw [user_exists, user_exists, h]

end Db

namespace Utils

theorem unfriend_ok (st : Db.Store) (a b : String)
    (h : Db.is_relation st a b "friend" = true ∨ Db.is_relation st b a "friend" = true) :
    ∃ st1, unfriend st a b = .ok st1 ∧ st1.users = st.users := by
  rw [unfriend]
  by_cases h1 : Db.is_relation st a b "friend" = true
  · rw [if_pos h1, Db.delete_relation_ok st a b _ h1]
    exact ⟨_, rfl, rfl⟩
  · have h2 : Db.is_relation st b a "friend" = true := h.resolve_left h1
    rw [if_neg h1, Db.delete_relation_ok st b a _ h2]
    exact ⟨_, rfl, rfl⟩

end Utils

namespace Events

/-- **C6 (counterexample).** A handler can fail and still leave a
committed store change behind: in a DM whose sole remaining member is
"alice", `leave_dm` commits the membership deletion, then the
notification block's `db.get_dm` raises `IndexError` (no rows), so the
handler answers "Internal server error." while the deletion persists —
the post-state differs from the pre-state. -/
theorem leave_dm_partial_effect_counterexample :
    (leave_dm Ex.c6Store "alice" 1).1 = .internalErr ∧
    (leave_dm Ex.c6Store "alice" 1).2 ≠ Ex.c6Store := by decide

/-- **C6 (amended).** Each individual Store call is atomic, and a handler
that fails during validation (an explicit `err` before any write) leaves
the store unchanged — shown for `leave_dm`; `block_user` never leaves a
partial effect on any failure, given referential integrity of the
relation table (both endpoints of every edge are registered users, which
the SQL foreign keys enforce).  But a handler that fails after a
committed write keeps that write, as the counterexample shows. -/
theorem handler_failure_atomicity :
    (∀ st : Db.Store, ∀ u : String, ∀ dm_id : Nat, ∀ msg : String,
      (leave_dm st u dm_id).1 = .err msg → (leave_dm st u dm_id).2 = st)
  ∧ (∀ st : Db.Store, ∀ sender target : String,
      (∀ r ∈ st.relations,
        Db.user_exists st r.from_user = true ∧ Db.user_exists st r.to_user = true) →
      (block_user st sender target).1 ≠ .ok →
      (block_user st sender target).2 = st) := by
  constructor
  · intro st u dm_id msg h
    by_cases hg : (!Db.dm_exists st dm_id || !Db.user_in_dm st u dm_id) = true
    · simp [leave_dm, hg]
    · have hgf : (!Db.dm_exists st dm_id || !Db.user_in_dm st u dm_id) = false := by
        simpa using hg
      exfalso
      simp only [leave_dm, hgf, Bool.false_eq_true, if_false] at h
      split at h <;> simp at h
  · intro st sender target hFK h
    by_cases hg : (!Db.user_exists st sender || Db.is_relation st sender target "block") = true
    · simp [block_user, hg]
    · have hsender : Db.user_exists st sender = true := by
        rcases Bool.eq_false_or_eq_true (Db.user_exists st sender) with hs | hs
        · exact hs
        · exact absurd (by rw [hs]; rfl) hg
      have hgf : (!Db.user_exists st sender ||
          Db.is_relation st sender target "block") = false := by
        simpa using hg
      by_cases ht : Db.user_exists st target = true
      · exfalso
        apply h
        have hstep1 : ∃ st1, (if (Db.get_of_status st sender "friend").contains target
              then Utils.unfriend st sender target else Except.ok st) = .ok st1 ∧
            st1.users = st.users := by
          by_cases hc : (Db.get_of_status st sender "friend").contains target = true
          · rw [if_pos hc]
            exact Utils.unfriend_ok st sender target
              (Or.symm ((Db.get_of_status_contains st sender "friend" target).mp hc).2)
          · rw [if_neg hc]
            exact ⟨st, rfl, rfl⟩
        obtain ⟨st1, h1, hu1⟩ := hstep1
        have hstep2 : ∃ st2, (if Db.is_relation st1 sender target "request"
              then Db.delete_relation st1 sender target else Except.ok st1) = .ok st2 ∧
            st2.users = st1.users := by
          by_cases hr : Db.is_relation st1 sender target "request" = true
          · rw [if_pos hr, Db.delete_relation_ok st1 sender target _ hr]
            exact ⟨_, rfl, rfl⟩
          · rw [if_neg hr]
            exact ⟨st1, rfl, rfl⟩
        obtain ⟨st2, h2, hu2⟩ := hstep2
        have hu2s : st2.users = st.users := by rw [hu2, hu1]
        have h3 := Db.create_relation_ok st2 sender target "block"
          ((Db.user_exists_congr st2 st hu2s sender).trans hsender)
          ((Db.user_exists_congr st2 st hu2s target).trans ht)
        simp only [block_user, hgf, Bool.false_eq_true, if_false, h1, h2, h3]
      · have htf : Db.user_exists st target = false := by simpa using ht
        have hnf : (Db.get_of_status st sender "friend").contains target = false := by
          by_contra hc
          have hc2 : (Db.get_of_status st sender "friend").contains target = true := by
            simpa using hc
          have hthis := ((Db.get_of_status_contains st sender "friend" target).mp hc2).1
          rw [htf] at hthis
          simp at hthis
        have hnr : Db.is_relation st sender target "request" = false := by
          by_contra hc
          have hc2 : Db.is_relation st sender target "request" = true := by simpa using hc
          simp only [Db.is_relation, List.any_eq_true, Bool.and_eq_true, beq_iff_eq] at hc2
          obtain ⟨r, hr, h12, h3⟩ := hc2
          have hfk := (hFK r hr).2
          rw [h12.2, htf] at hfk
          simp at hfk
        have hnc : Db.create_relation st sender target "block" =
            Except.error Db.DbErr.doesNotExist := by
          rw [Db.create_relation, if_neg (by simp [htf])]
        simp only [block_user, hgf, Bool.false_eq_true, if_false, hnf, hnr, hnc]

/-- Witness for C6 (amended): on the empty store, leaving a nonexistent
DM fails with the access error and the store is unchanged. -/
theorem handler_failure_atomicity_witness :
    (leave_dm ⟨[], [], [], [], []⟩ "x" 1).2 = (⟨[], [], [], [], []⟩ : Db.Store) :=
  handler_failure_atomicity.1 ⟨[], [], [], [], []⟩ "x" 1
    "You do not have access to that DM." (by decide)

end Events

namespace Events

theorem login_fields (st : Db.Store) (chal resp user : String) (s : Session) :
    ((login st chal resp user s).1.1 = false → (login st chal resp user s).2 = s)
  ∧ (login st chal resp user s).2.login_fails = s.login_fails
  ∧ (login st chal resp user s).2.lockout_start = s.lockout_start := by
  rw [login]
  split
  · exact ⟨fun _ => rfl, rfl, rfl⟩
  · split
    · exact ⟨fun _ => rfl, rfl, rfl⟩
    · exact ⟨fun hf => by simp at hf, rfl, rfl⟩

theorem lcr_fields (response : String) (s : Session) :
    ((login_challenge_response response s).1.1 = false →
      (login_challenge_response response s).2.login_fails = s.login_fails ∧
      (login_challenge_response response s).2.lockout_start = s.lockout_start)
  ∧ ((login_challenge_response response s).1.1 = true →
      (login_challenge_response response s).2.login_fails = 0 ∧
      (login_challenge_response response s).2.logged_in = true)
  ∧ (login_challenge_response response s).2.lockout_start = s.lockout_start := by
  rw [login_challenge_response]
  split
  · exact ⟨fun _ => ⟨rfl, rfl⟩, fun ht => by simp at ht, rfl⟩
  · split
    · exact ⟨fun _ => ⟨rfl, rfl⟩, fun ht => by simp at ht, rfl⟩
    · exact ⟨fun hf => by simp at hf, fun _ => ⟨rfl, rfl⟩, rfl⟩

theorem login_fail_wrap_cases (f : Session → (Bool × AuthRes) × Session)
    (now : Int) (s : Session) :
    (now - s.lockout_start < 60 →
      login_fail_wrap f now s =
        ((false, .errmsg "You have been locked out for 60 seconds."), s))
  ∧ (¬(now - s.lockout_start < 60) → (f s).1.1 = true → login_fail_wrap f now s = f s)
  ∧ (¬(now - s.lockout_start < 60) → (f s).1.1 = false →
      (login_fail_wrap f now s).1.1 = false ∧
      (login_fail_wrap f now s).2.login_fails = (f s).2.login_fails + 1 ∧
      (10 ≤ (f s).2.login_fails + 1 →
        (login_fail_wrap f now s).2.lockout_start = now) ∧
      ((f s).2.login_fails + 1 < 10 →
        (login_fail_wrap f now s).2.lockout_start = (f s).2.lockout_start)) := by
  refine ⟨?_, ?_, ?_⟩
  · intro h
    rw [login_fail_wrap, if_pos h]
  · intro h hf
    rw [login_fail_wrap, if_neg h]
    simp only [hf, Bool.not_true, Bool.false_eq_true, if_false]
  · intro h hf
    rw [login_fail_wrap, if_neg h]
    simp only [hf, Bool.not_false, if_true]
    by_cases h10 : 10 ≤ (f s).2.login_fails + 1
    · rw [if_pos (by omega)]
      exact ⟨rfl, rfl, fun _ => rfl, fun hlt => absurd h10 (by omega)⟩
    · rw [if_neg (by omega)]
      exact ⟨rfl, rfl, fun hge => absurd hge h10, fun _ => rfl⟩

/-- **C4.** On a single connection: while `now - lockout_start < 60`
every auth attempt fails with the lockout message and leaves the session
unchanged; outside the lockout window every auth-class failure increments
`login_fails`, and the failure that brings the counter to 10 or more sets
`lockout_start := now` (a failure below 10 leaves `lockout_start`
alone); `login_fails` never decreases except through a successful
challenge response, which resets it to 0 and sets `logged_in`; and once
60 seconds have elapsed, a correct `login` followed by the correct
`login_challenge_response` succeeds, ends with `login_fails = 0` and
`logged_in = true`. -/
theorem lockout_spec (st : Db.Store) :
    (∀ ev now s, now - s.lockout_start < 60 →
        auth_step st ev now s =
          ((false, .errmsg "You have been locked out for 60 seconds."), s))
  ∧ (∀ ev now s, ¬(now - s.lockout_start < 60) → (auth_step st ev now s).1.1 = false →
        (auth_step st ev now s).2.login_fails = s.login_fails + 1 ∧
        (10 ≤ s.login_fails + 1 → (auth_step st ev now s).2.lockout_start = now) ∧
        (s.login_fails + 1 < 10 →
          (auth_step st ev now s).2.lockout_start = s.lockout_start))
  ∧ (∀ ev now s, (auth_step st ev now s).2.login_fails < s.login_fails →
        (auth_step st ev now s).1.1 = true ∧
        (auth_step st ev now s).2.login_fails = 0 ∧
        (auth_step st ev now s).2.logged_in = true)
  ∧ (∀ user chal resp : String, ∀ now1 now2 : Int, ∀ s : Session,
        Db.user_exists st user = true → s.logged_in = false →
        60 ≤ now1 - s.lockout_start → 60 ≤ now2 - s.lockout_start →
        (auth_step st (.loginEv user chal resp) now1 s).1.1 = true ∧
        (auth_step st (.challengeResponseEv resp) now2
            (auth_step st (.loginEv user chal resp) now1 s).2).1.1 = true ∧
        (auth_step st (.challengeResponseEv resp) now2
            (auth_step st (.loginEv user chal resp) now1 s).2).2.login_fails = 0 ∧
        (auth_step st (.challengeResponseEv resp) now2
            (auth_step st (.loginEv user chal resp) now1 s).2).2.logged_in = true) := by
  refine ⟨?_, ?_, ?_, ?_⟩
  · intro ev now s h
    cases ev with
    | loginEv user chal resp =>
      exact (login_fail_wrap_cases (login st chal resp user) now s).1 h
    | challengeResponseEv r =>
      exact (login_fail_wrap_cases (login_challenge_response r) now s).1 h
  · intro ev now s hnl hfail
    cases ev with
    | loginEv user chal resp =>
      by_cases hin : (login st chal resp user s).1.1 = true
      · rw [show auth_step st (.loginEv user chal resp) now s =
            login st chal resp user s from
            (login_fail_wrap_cases (login st chal resp user) now s).2.1 hnl hin] at hfail
        exact absurd hin (by rw [hfail]; simp)
      · have hin2 : (login st chal resp user s).1.1 = false := by simpa using hin
        obtain ⟨_, hfl, hls⟩ := login_fields st chal resp user s
        obtain ⟨_, hw2, hw3, hw4⟩ :=
          (login_fail_wrap_cases (login st chal resp user) now s).2.2 hnl hin2
        rw [hfl] at hw2 hw3 hw4
        rw [hls] at hw4
        exact ⟨hw2, hw3, hw4⟩
    | challengeResponseEv r =>
      by_cases hin : (login_challenge_response r s).1.1 = true
      · rw [show auth_step st (.challengeResponseEv r) now s =
            login_challenge_response r s from
            (login_fail_wrap_cases (login_challenge_response r) now s).2.1 hnl hin] at hfail
        exact absurd hin (by rw [hfail]; simp)
      · have hin2 : (login_challenge_response r s).1.1 = false := by simpa using hin
        obtain ⟨hfl, hls⟩ := (lcr_fields r s).1 hin2
        obtain ⟨_, hw2, hw3, hw4⟩ :=
          (login_fail_wrap_cases (login_challenge_response r) now s).2.2 hnl hin2
        rw [hfl] at hw2 hw3 hw4
        rw [hls] at hw4
        exact ⟨hw2, hw3, hw4⟩
  · intro ev now s hdec
    by_cases hnl : now - s.lockout_start < 60
    · rw [(show auth_step st ev now s =
          ((false, .errmsg "You have been locked out for 60 seconds."), s) by
        cases ev with
        | loginEv user chal resp =>
          exact (login_fail_wrap_cases (login st chal resp user) now s).1 hnl
        | challengeResponseEv r =>
          exact (login_fail_wrap_cases (login_challenge_response r) now s).1 hnl)] at hdec
      simp at hdec
    · cases ev with
      | loginEv user chal resp =>
        simp only [auth_step] at hdec ⊢
        by_cases hin : (login st chal resp user s).1.1 = true
        · have heq := (login_fail_wrap_cases (login st chal resp user) now s).2.1 hnl hin
          rw [heq] at hdec
          rw [(login_fields st chal resp user s).2.1] at hdec
          omega
        · have hin2 : (login st chal resp user s).1.1 = false := by simpa using hin
          obtain ⟨_, hw2, _, _⟩ :=
            (login_fail_wrap_cases (login st chal resp user) now s).2.2 hnl hin2
          rw [hw2, (login_fields st chal resp user s).2.1] at hdec
          omega
      | challengeResponseEv r =>
        simp only [auth_step] at hdec ⊢
        by_cases hin : (login_challenge_response r s).1.1 = true
        · have heq := (login_fail_wrap_cases (login_challenge_response r) now s).2.1 hnl hin
          rw [heq] at hdec ⊢
          obtain ⟨h0, hli⟩ := (lcr_fields r s).2.1 hin
          exact ⟨hin, h0, hli⟩
        · have hin2 : (login_challenge_response r s).1.1 = false := by simpa using hin
          obtain ⟨hfl, _⟩ := (lcr_fields r s).1 hin2
          obtain ⟨_, hw2, _, _⟩ :=
            (login_fail_wrap_cases (login_challenge_response r) now s).2.2 hnl hin2
          rw [hw2, hfl] at hdec
          omega
  · intro user chal resp now1 now2 s huser hlog hn1 hn2
    have hlogres : login st chal resp user s =
        ((true, .challenge chal),
         { s with challenge_response := some resp, username := user }) := by
      rw [login, if_neg (by simp [huser]), if_neg (by simp [hlog])]
    have hs1 := (login_fail_wrap_cases (login st chal resp user) now1 s).2.1
      (by omega) (by rw [hlogres])
    have hstep1 : auth_step st (.loginEv user chal resp) now1 s =
        ((true, .challenge chal),
         { s with challenge_response := some resp, username := user }) := by
      rw [show auth_step st (.loginEv user chal resp) now1 s =
          login_fail_wrap (login st chal resp user) now1 s from rfl, hs1, hlogres]
    set s1 : Session := { s with challenge_response := some resp, username := user } with hs1def
    have hlcr : login_challenge_response resp s1 =
        ((true, .done),
         { s1 with challenge_response := none, logged_in := true, login_fails := 0 }) := by
      rw [login_challenge_response]
      simp
    have hs2 := (login_fail_wrap_cases (login_challenge_response resp) now2 s1).2.1
      (by simp only [hs1def]; omega) (by rw [hlcr])
    have hstep2 : auth_step st (.challengeResponseEv resp) now2 s1 =
        ((true, .done),
         { s1 with challenge_response := none, logged_in := true, login_fails := 0 }) := by
      rw [show auth_step st (.challengeResponseEv resp) now2 s1 =
          login_fail_wrap (login_challenge_response resp) now2 s1 from rfl, hs2, hlcr]
    rw [hstep1]
    exact ⟨rfl, by rw [hstep2], by rw [hstep2], by rw [hstep2]⟩

/-- Witness for C4: with 10 accumulated failures and lockout armed at
time 0, a correct login at `t = 60` and the correct challenge response at
`t = 61` succeed and reset the fail counter. -/
theorem lockout_spec_witness :
    (auth_step Ex.c4Store (.challengeResponseEv "r") 61
        (auth_step Ex.c4Store (.loginEv "alice" "c" "r") 60 Ex.c4Session).2).1.1 = true ∧
    (auth_step Ex.c4Store (.challengeResponseEv "r") 61
        (auth_step Ex.c4Store (.loginEv "alice" "c" "r") 60 Ex.c4Session).2).2.login_fails
      = 0 := by
  have h := (lockout_spec Ex.c4Store).2.2.2 "alice" "c" "r" 60 61 Ex.c4Session
    (by decide) rfl (by decide) (by decide)
  exact ⟨h.2.1, h.2.2.1⟩

end Events

namespace Db

theorem foldl_max_bounds (l : List Nat) :
    ∀ a : Nat, (∀ x ∈ l, x ≤ l.foldl max a) ∧ a ≤ l.foldl max a := by
  induction l with
  | nil => exact fun a => ⟨by simp, le_refl a⟩
  | cons x xs ih =>
    intro a
    have h2 : max a x ≤ (x :: xs).foldl max a := by
      simp only [List.foldl_cons]
      exact (ih (max a x)).2
    constructor
    · intro y hy
      rcases List.mem_cons.mp hy with rfl | hy
      · exact le_trans (le_max_right a y) h2
      · simp only [List.foldl_cons]
        exact (ih (max a x)).1 y hy
    · exact le_trans (le_max_left a x) h2

theorem max_timestamp_is_max (st : Store) (dm_id : Nat) :
    ∀ m ∈ dm_messages st dm_id, m.timestamp ≤ max_timestamp st dm_id := by
  intro m hm
  exact (foldl_max_bounds ((dm_messages st dm_id).map (fun x => x.timestamp)) 0).1
    m.timestamp (List.mem_map.mpr ⟨m, hm, rfl⟩)

theorem get_dm_latest_nil (st : Store) (dm_id : Nat)
    (h : latest_rows st dm_id = []) : get_dm_latest st dm_id = .nothing := by
  rw [get_dm_latest, h]

theorem get_dm_latest_cons (st : Store) (dm_id : Nat)
    (r0 : MessageRec × Option ReactionRec) (rest : List (MessageRec × Option ReactionRec))
    (h : latest_rows st dm_id = r0 :: rest) :
    get_dm_latest st dm_id =
      (if r0.2.isSome then
        (if (r0 :: rest).all (fun r => r.2.isSome) then
          .ok r0.1 ((r0 :: rest).filterMap (fun r => r.2))
         else .attrErr)
       else .ok r0.1 []) := by
  rw [get_dm_latest, h]

theorem latest_rows_head (st : Store) (dm_id : Nat)
    (r0 : MessageRec × Option ReactionRec) (rest : List (MessageRec × Option ReactionRec))
    (h : latest_rows st dm_id = r0 :: rest) :
    ∃ ts, (dm_messages st dm_id).filter
        (fun m => m.timestamp == max_timestamp st dm_id) = r0.1 :: ts := by
  rw [latest_rows] at h
  cases htied : (dm_messages st dm_id).filter
      (fun m => m.timestamp == max_timestamp st dm_id) with
  | nil =>
    rw [htied] at h
    simp at h
  | cons t ts =>
    rw [htied] at h
    rw [List.flatMap_cons] at h
    refine ⟨ts, ?_⟩
    cases hre : get_reactions st t.id with
    | nil =>
      rw [hre] at h
      simp only [List.cons_append, List.nil_append] at h
      have hfst := ((List.cons.injEq _ _ _ _).mp h).1
      rw [← hfst]
    | cons r rs =>
      rw [hre] at h
      simp only [List.map_cons, List.cons_append] at h
      have hfst := ((List.cons.injEq _ _ _ _).mp h).1
      rw [← hfst]

/-- **C2 (amended).** With the message table in rowid (id-ascending)
order: whenever `get_dm`'s latest-message query returns a message, that
message carries the maximal timestamp of the DM and, among the messages
tied at that maximum, it is the one with the LOWEST id (the first row of
the scan — not the highest id as claimed); and when the maximal
timestamp is attained by exactly one message, the result is that message
together with exactly its reactions. -/
theorem get_dm_latest_spec (st : Store) (dm_id : Nat)
    (hsort : st.messages.Pairwise (fun a b => a.id < b.id)) :
    (∀ m rs, get_dm_latest st dm_id = .ok m rs →
      m ∈ dm_messages st dm_id ∧ m.timestamp = max_timestamp st dm_id ∧
      (∀ m2 ∈ dm_messages st dm_id, m2.timestamp ≤ max_timestamp st dm_id) ∧
      (∀ m2 ∈ dm_messages st dm_id, m2.timestamp = max_timestamp st dm_id →
        m.id ≤ m2.id))
  ∧ (∀ M, M ∈ dm_messages st dm_id → M.timestamp = max_timestamp st dm_id →
      (∀ m2 ∈ dm_messages st dm_id, m2.timestamp = max_timestamp st dm_id → m2 = M) →
      get_dm_latest st dm_id = .ok M (get_reactions st M.id)) := by
  have hpair : ((dm_messages st dm_id).filter
      (fun m => m.timestamp == max_timestamp st dm_id)).Pairwise
        (fun a b => a.id < b.id) := by
    exact (hsort.filter _).filter _
  constructor
  · intro m rs hok
    cases hrows : latest_rows st dm_id with
    | nil =>
      rw [get_dm_latest_nil st dm_id hrows] at hok
      simp at hok
    | cons r0 rest =>
      rw [get_dm_latest_cons st dm_id r0 rest hrows] at hok
      have hm : m = r0.1 := by
        split at hok
        · split at hok
          · exact ((LatestMessage.ok.injEq _ _ _ _).mp hok).1.symm
          · simp at hok
        · exact ((LatestMessage.ok.injEq _ _ _ _).mp hok).1.symm
      obtain ⟨ts, htied⟩ := latest_rows_head st dm_id r0 rest hrows
      have hmtied : m ∈ (dm_messages st dm_id).filter
          (fun x => x.timestamp == max_timestamp st dm_id) := by
        rw [htied, hm]
        exact List.mem_cons_self _ _
      have hmem := List.mem_filter.mp hmtied
      refine ⟨hmem.1, by simpa using hmem.2, max_timestamp_is_max st dm_id, ?_⟩
      intro m2 hm2 hts2
      have hm2tied : m2 ∈ (dm_messages st dm_id).filter
          (fun x => x.timestamp == max_timestamp st dm_id) :=
        List.mem_filter.mpr ⟨hm2, by simpa using hts2⟩
      rw [htied] at hm2tied hpair
      rcases List.mem_cons.mp hm2tied with rfl | hm2ts
      · rw [hm]
      · rw [hm]
        exact le_of_lt ((List.pairwise_cons.mp hpair).1 m2 hm2ts)
  · intro M hM hMts huniq
    have htied : (dm_messages st dm_id).filter
        (fun m => m.timestamp == max_timestamp st dm_id) = [M] := by
      have hMem : M ∈ (dm_messages st dm_id).filter
          (fun m => m.timestamp == max_timestamp st dm_id) :=
        List.mem_filter.mpr ⟨hM, by simpa using hMts⟩
      have hall : ∀ x ∈ (dm_messages st dm_id).filter
          (fun m => m.timestamp == max_timestamp st dm_id), x = M := by
        intro x hx
        have h1 := List.mem_filter.mp hx
        exact huniq x h1.1 (by simpa using h1.2)
      cases htt : (dm_messages st dm_id).filter
          (fun m => m.timestamp == max_timestamp st dm_id) with
      | nil =>
        rw [htt] at hMem
        cases hMem
      | cons t ts2 =>
        rw [htt] at hall hpair
        have ht : t = M := hall t (List.mem_cons_self _ _)
        cases ts2 with
        | nil => rw [ht]
        | cons u us =>
          exfalso
          have hu : u = M := hall u (List.mem_cons.mpr (Or.inr (List.mem_cons_self _ _)))
          have hlt := (List.pairwise_cons.mp hpair).1 u (List.mem_cons_self _ _)
          rw [ht, hu] at hlt
          omega
    cases hre : get_reactions st M.id with
    | nil =>
      have hrows : latest_rows st dm_id = [(M, none)] := by
        rw [latest_rows, htied, List.flatMap_cons, List.flatMap_nil, List.append_nil, hre]
      rw [get_dm_latest_cons st dm_id (M, none) [] hrows]
      simp
    | cons r rs =>
      have hrows : latest_rows st dm_id =
          (M, some r) :: rs.map (fun x => (M, some x)) := by
        rw [latest_rows, htied, List.flatMap_cons, List.flatMap_nil, List.append_nil, hre]
        simp
      rw [get_dm_latest_cons st dm_id (M, some r) (rs.map (fun x => (M, some x))) hrows]
      have hall : ((M, some r) :: rs.map (fun x => (M, some x))).all
          (fun p => p.2.isSome) = true := by
        simp [List.all_eq_true]
      simp only [hall, List.filterMap_map, Option.isSome_some, if_true]
      have hcomp : ((fun (p : MessageRec × Option ReactionRec) => p.2) ∘
          fun x => (M, some x)) = some := by
        funext x
        rfl
      simp [hcomp, List.filterMap_some]

/-- **C2 (counterexample).** Two messages of DM 1 share the maximal
timestamp 5; the query returns the one with id 1 — the LOWEST id — not
the highest-id message as the claim's tie-break states. -/
theorem get_dm_latest_tie_counterexample :
    get_dm_latest Ex.c2Store 1 = .ok Ex.c2M1 [] ∧
    Ex.c2M1.id = 1 ∧ Ex.c2M2.id = 2 ∧
    Ex.c2M2 ∈ dm_messages Ex.c2Store 1 ∧
    Ex.c2M1.timestamp = max_timestamp Ex.c2Store 1 ∧
    Ex.c2M2.timestamp = max_timestamp Ex.c2Store 1 := by decide

/-- Witness for C2 (amended), at the concrete tied store: the returned
message is a maximal-timestamp message of least id. -/
theorem get_dm_latest_spec_witness :
    Ex.c2M1 ∈ dm_messages Ex.c2Store 1 ∧
    Ex.c2M1.timestamp = max_timestamp Ex.c2Store 1 ∧
    (∀ m2 ∈ dm_messages Ex.c2Store 1, m2.timestamp ≤ max_timestamp Ex.c2Store 1) ∧
    (∀ m2 ∈ dm_messages Ex.c2Store 1,
      m2.timestamp = max_timestamp Ex.c2Store 1 → Ex.c2M1.id ≤ m2.id) :=
  (get_dm_latest_spec Ex.c2Store 1 (by decide)).1 Ex.c2M1 [] (by decide)

end Db

namespace Db

theorem strict_of_sorted_distinct (l : List MessageRec)
    (hle : l.Pairwise (fun a b => (fun x y : MessageRec =>
      decide (y.timestamp ≤ x.timestamp)) a b = true))
    (hne : l.Pairwise (fun a b => a.timestamp ≠ b.timestamp)) :
    l.Pairwise (fun a b => b.timestamp < a.timestamp) := by
  refine (hle.and hne).imp ?_
  intro a b hab
  obtain ⟨h1, h2⟩ := hab
  simp at h1
  omega

theorem history_perm (st : Store) (dm_id : Nat) :
    (history st dm_id).Perm (dm_messages st dm_id) :=
  List.mergeSort_perm _ _

theorem history_sorted (st : Store) (dm_id : Nat)
    (hdist : (dm_messages st dm_id).Pairwise (fun a b => a.timestamp ≠ b.timestamp)) :
    (history st dm_id).Pairwise (fun a b => b.timestamp < a.timestamp) := by
  apply strict_of_sorted_distinct
  · exact List.sorted_mergeSort
      (fun a b c hab hbc => by simp at hab hbc ⊢; omega)
      (fun a b => by simp; omega) (dm_messages st dm_id)
  · exact hdist.perm (history_perm st dm_id).symm (fun h => h.symm)

theorem mergeSort_filter_comm (l : List MessageRec) (p : MessageRec → Bool)
    (hdist : l.Pairwise (fun a b => a.timestamp ≠ b.timestamp)) :
    (l.filter p).mergeSort (fun a b => b.timestamp ≤ a.timestamp) =
      (l.mergeSort (fun a b => b.timestamp ≤ a.timestamp)).filter p := by
  haveI : IsAntisymm MessageRec (fun a b => b.timestamp < a.timestamp) :=
    ⟨fun a b h1 h2 => absurd h2 (by omega)⟩
  have hsortl : (l.mergeSort (fun a b : MessageRec =>
      decide (b.timestamp ≤ a.timestamp))).Pairwise
        (fun a b => b.timestamp < a.timestamp) := by
    apply strict_of_sorted_distinct
    · exact List.sorted_mergeSort
        (fun a b c hab hbc => by simp at hab hbc ⊢; omega)
        (fun a b => by simp; omega) l
    · exact hdist.perm (List.mergeSort_perm l _).symm (fun h => h.symm)
  apply List.eq_of_perm_of_sorted
      (r := fun a b : MessageRec => b.timestamp < a.timestamp)
  · exact (List.mergeSort_perm _ _).trans
      (((List.mergeSort_perm l _).filter p).symm)
  · apply strict_of_sorted_distinct
    · exact List.sorted_mergeSort
        (fun a b c hab hbc => by simp at hab hbc ⊢; omega)
        (fun a b => by simp; omega) (l.filter p)
    · exact (hdist.filter p).perm (List.mergeSort_perm _ _).symm (fun h => h.symm)
  · exact hsortl.filter p

theorem filter_lt_of_split (A B : List MessageRec) (m : MessageRec)
    (h : (A ++ m :: B).Pairwise (fun a b => b.timestamp < a.timestamp)) :
    (A ++ m :: B).filter (fun x => x.timestamp < m.timestamp) = B := by
  rw [List.filter_append]
  have hsplit := List.pairwise_append.mp h
  have hA : A.filter (fun x => decide (x.timestamp < m.timestamp)) = [] := by
    rw [List.filter_eq_nil_iff]
    intro a ha
    have := hsplit.2.2 a ha m (List.mem_cons_self _ _)
    simp
    omega
  have hmB : (m :: B).filter (fun x => decide (x.timestamp < m.timestamp)) = B := by
    rw [List.filter_cons]
    have hcons := List.pairwise_cons.mp hsplit.2.1
    rw [if_neg (by simp)]
    rw [List.filter_eq_self.mpr]
    intro b hb
    have := hcons.1 b hb
    simp
    omega
  rw [hA, hmB, List.nil_append]

/-- **C7 (amended).** Provided every message of the DM has a distinct
timestamp and the initial cursor exceeds them all, the cursor-following
call sequence pages through the exact timestamp-descending history in
consecutive chunks: the `k`-th call returns elements `k*limit` through
`k*limit + limit - 1` of the sorted history — hence the pages are
pairwise disjoint, contiguous, newest-first, of at most `limit` entries,
each below its call's cursor, and their concatenation is the entire
history.  (With tied timestamps a message can be skipped — see the
counterexample.) -/
theorem pagination_spec (st : Store) (dm_id : Nat) (limit cursor : Nat)
    (hN : 1 ≤ limit)
    (hdist : (dm_messages st dm_id).Pairwise (fun a b => a.timestamp ≠ b.timestamp))
    (hcur : ∀ m ∈ dm_messages st dm_id, m.timestamp < cursor) :
    ∀ k, pageSeq st dm_id limit cursor k =
      ((history st dm_id).drop (k * limit)).take limit := by
  have hsorted := history_sorted st dm_id hdist
  have hget : ∀ c n, get_messages st dm_id c n =
      ((history st dm_id).filter (fun x => x.timestamp < c)).take n := by
    intro c n
    rw [get_messages]
    congr 1
    have hsplit : st.messages.filter (fun m => m.dm == dm_id && m.timestamp < c) =
        (dm_messages st dm_id).filter (fun m => m.timestamp < c) := by
      rw [dm_messages, List.filter_filter]
      apply List.filter_congr
      intro a _
      rw [Bool.and_comm]
    rw [hsplit]
    exact mergeSort_filter_comm (dm_messages st dm_id) _ hdist
  intro k
  induction k with
  | zero =>
    rw [pageSeq, hget, Nat.zero_mul, List.drop_zero]
    congr 1
    rw [List.filter_eq_self]
    intro m hm
    have := hcur m ((history_perm st dm_id).mem_iff.mp hm)
    simp
    omega
  | succ k ih =>
    rw [pageSeq, ih]
    by_cases hnil : ((history st dm_id).drop (k * limit)).take limit = []
    · rw [hnil]
      have hdropnil : (history st dm_id).drop (k * limit) = [] := by
        rcases List.take_eq_nil_iff.mp hnil with h | h
        · omega
        · exact h
      have hd2 : (history st dm_id).drop ((k + 1) * limit) = [] := by
        have hcalc : (k + 1) * limit = k * limit + limit := by ring
        rw [hcalc, ← List.drop_drop, hdropnil, List.drop_nil]
      rw [hd2, List.take_nil]
      rfl
    · set chunk := ((history st dm_id).drop (k * limit)).take limit with hchunkdef
      have hne : chunk ≠ [] := hnil
      rw [List.getLast?_eq_getLast chunk hne]
      show get_messages st dm_id (chunk.getLast hne).timestamp limit =
        ((history st dm_id).drop ((k + 1) * limit)).take limit
      set m := chunk.getLast hne with hmdef
      have hdecomp : history st dm_id =
          ((history st dm_id).take (k * limit) ++ chunk.dropLast) ++ m ::
            (history st dm_id).drop ((k + 1) * limit) := by
        have h1 : chunk.dropLast ++ [m] = chunk := List.dropLast_concat_getLast hne
        have h2 : chunk ++ ((history st dm_id).drop (k * limit)).drop limit =
            (history st dm_id).drop (k * limit) := by
          rw [hchunkdef]
          exact List.take_append_drop limit _
        have h3 : ((history st dm_id).drop (k * limit)).drop limit =
            (history st dm_id).drop ((k + 1) * limit) := by
          rw [List.drop_drop]
          congr 1
          ring
        calc history st dm_id
            = (history st dm_id).take (k * limit) ++ (history st dm_id).drop (k * limit) :=
              (List.take_append_drop _ _).symm
          _ = (history st dm_id).take (k * limit) ++
              (chunk ++ (history st dm_id).drop ((k + 1) * limit)) := by
              rw [← h3, h2]
          _ = (history st dm_id).take (k * limit) ++
              ((chunk.dropLast ++ [m]) ++ (history st dm_id).drop ((k + 1) * limit)) := by
              rw [h1]
          _ = ((history st dm_id).take (k * limit) ++ chunk.dropLast) ++ m ::
              (history st dm_id).drop ((k + 1) * limit) := by
              simp
      have hpara := hdecomp ▸ hsorted
      have hfilter : (history st dm_id).filter (fun x => x.timestamp < m.timestamp) =
          (history st dm_id).drop ((k + 1) * limit) := by
        conv_lhs => rw [hdecomp]
        rw [filter_lt_of_split _ _ _ hpara]
      rw [hget, hfilter]

/-- **C7 (counterexample).** With limit 1 and two messages of DM 1 tied
at timestamp 5, the first page returns the id-1 message, and the second
call — cursor = 5, strict `timestamp < cursor` — returns nothing (as do
all later pages): the id-2 message is in the history, below the original
cursor, yet never returned, so the concatenation of the pages is not the
entire message history. -/
theorem pagination_tie_counterexample :
    pageSeq Ex.c7Store 1 1 10 0 = [Ex.c7M1] ∧
    pageSeq Ex.c7Store 1 1 10 1 = [] ∧
    pageSeq Ex.c7Store 1 1 10 2 = [] ∧
    Ex.c7M2 ∈ dm_messages Ex.c7Store 1 ∧
    Ex.c7M2.timestamp < 10 ∧
    Ex.c7M2 ∉ [Ex.c7M1] := by
  have hf0 : Ex.c7Store.messages.filter
      (fun m => m.dm == 1 && m.timestamp < 10) = [Ex.c7M1, Ex.c7M2] := by decide
  have hpage0 : pageSeq Ex.c7Store 1 1 10 0 = [Ex.c7M1] := by
    show get_messages Ex.c7Store 1 10 1 = [Ex.c7M1]
    rw [get_messages, hf0, List.mergeSort_of_sorted (by decide)]
    rfl
  have hf1 : Ex.c7Store.messages.filter
      (fun m => m.dm == 1 && m.timestamp < Ex.c7M1.timestamp) = [] := by decide
  have hpage1 : pageSeq Ex.c7Store 1 1 10 1 = [] := by
    rw [pageSeq, hpage0]
    show get_messages Ex.c7Store 1 Ex.c7M1.timestamp 1 = []
    rw [get_messages, hf1, List.mergeSort_nil]
    rfl
  have hpage2 : pageSeq Ex.c7Store 1 1 10 2 = [] := by
    rw [pageSeq, hpage1]
    rfl
  exact ⟨hpage0, hpage1, hpage2, by decide, by decide, by decide⟩

/-- Witness for C7 (amended), on a DM with distinct timestamps 5 and 3:
the second page (k = 1) is exactly the second element of the descending
history. -/
theorem pagination_spec_witness :
    pageSeq Ex.c7StoreD 1 1 10 1 =
      ((history Ex.c7StoreD 1).drop (1 * 1)).take 1 :=
  pagination_spec Ex.c7StoreD 1 1 10 (by decide) (by decide) (by decide) 1

end Db
